import Mathlib

/-!
Shallow embedding of `src/bundleparty.py` (the `run_analysis` scanner) and
proofs of the specification claims about it.

Modelling conventions:
* Python strings are Lean `String`; `a in b` (substring test) is `pyIn`;
  `str.lower()` is `pyLower` (per-character `Char.toLower`, faithful on the
  ASCII data the analyses use).
* `os.walk` + the per-file line loop is modelled by an explicit list of
  `LogFile`s (walk order = list order) and structural recursion.
* Python's `re` module is not part of the repository; compiled regular
  expressions are modelled by a small `Regex` AST covering the constructs the
  catalog's patterns use, with `re.compile` abstracted as a
  `String → Option Regex` parameter (failure = `re.error`).
* The fallible I/O steps of `run_analysis` (mkdir, destination open) are
  modelled by explicit success flags; the destination file's content is an
  `Option (List String)` (`none` = file absent).
-/

/-- Contiguous-substring containment on character lists: does `needle` occur
as a prefix of some suffix of `hay`? -/
def subAt : List Char → List Char → Bool
  | needle, [] => needle.isEmpty
  | needle, x :: xs => needle.isPrefixOf (x :: xs) || subAt needle xs

/-- Python `needle in hay` on strings: contiguous substring containment. -/
def pyIn (needle hay : String) : Bool :=
  subAt needle.toList hay.toList

/-- Python `s.lower()` restricted to per-character lowering (exact on ASCII). -/
def pyLower (s : String) : String :=
  String.mk (s.toList.map Char.toLower)

/-- Python `s.endswith(suffix)`. -/
def pyEndsWith (s suffix : String) : Bool :=
  suffix.toList.reverse.isPrefixOf s.toList.reverse

/-- `OUTPUT_DIR_NAME = "analysis_results"` from the source. -/
def OUTPUT_DIR_NAME : String := "analysis_results"

/-- One regular file yielded by the walk: its `dirpath` (as `os.walk` reports
it), its `filename`, and its decoded lines. -/
structure LogFile where
  dirpath : String
  filename : String
  lines : List String
deriving DecidableEq

/-- The per-run arguments of `run_analysis` after the `ignore_terms is None`
normalisation (an absent list is already `[]`). -/
structure AnalysisSpec where
  terms : List String
  output_file : String
  is_regex : Bool
  ignore_terms : List String
deriving DecidableEq

/-- Case-insensitive character comparison (`re.IGNORECASE`). -/
def charIEq (c x : Char) : Bool :=
  c.toLower == x.toLower

/-- Regular-expression AST covering the catalog's patterns: literal character,
character class, sequencing, `?`, and `class+`. -/
inductive Regex where
  | eps : Regex
  | chr : Char → Regex
  | cls : List Char → Regex
  | seq : Regex → Regex → Regex
  | opt : Regex → Regex
  | clsPlus : List Char → Regex
deriving DecidableEq

/-- Suffixes remaining after `class+` matches one or more leading characters
of the input drawn from the class `p`. -/
def clsPlusEnds (p : List Char) : List Char → List (List Char)
  | [] => []
  | x :: xs => if p.any (fun c => charIEq c x) then xs :: clsPlusEnds p xs else []

/-- All suffixes remaining after the regex matches some prefix of `s`
(nonempty result = a match starting at the head of `s`). -/
def Regex.matchEnds : Regex → List Char → List (List Char)
  | Regex.eps, s => [s]
  | Regex.chr _, [] => []
  | Regex.chr c, x :: xs => if charIEq c x then [xs] else []
  | Regex.cls _, [] => []
  | Regex.cls p, x :: xs => if p.any (fun c => charIEq c x) then [xs] else []
  | Regex.seq a b, s => (Regex.matchEnds a s).flatMap (fun t => Regex.matchEnds b t)
  | Regex.opt r, s => s :: Regex.matchEnds r s
  | Regex.clsPlus p, s => clsPlusEnds p s

/-- Does the regex match starting exactly at the head of `s`? -/
def Regex.matchesAt (r : Regex) (s : List Char) : Bool :=
  !(Regex.matchEnds r s).isEmpty

/-- Search at every start position (Python `pattern.search(line)`). -/
def searchChars (r : Regex) : List Char → Bool
  | [] => Regex.matchesAt r []
  | x :: xs => Regex.matchesAt r (x :: xs) || searchChars r xs

/-- `pattern.search(line)` as a Bool on strings. -/
def Regex.search (r : Regex) (s : String) : Bool :=
  searchChars r s.toList

/-- A compiled pattern keeps its source text (`pattern.pattern` in Python). -/
structure CompiledPattern where
  pattern : String
  re : Regex
deriving DecidableEq

/-- Sequence of case-insensitive literal characters. -/
def strChars (s : String) : Regex :=
  s.toList.foldr (fun c r => Regex.seq (Regex.chr c) r) Regex.eps

/-- The `\s` class (Python whitespace: space, \t, \n, \v, \f, \r). -/
def wsChars : List Char :=
  [' ', Char.ofNat 9, Char.ofNat 10, Char.ofNat 11, Char.ofNat 12, Char.ofNat 13]

/-- The `\d` class. -/
def digitChars : List Char :=
  ['0', '1', '2', '3', '4', '5', '6', '7', '8', '9']

/-- Step 3, literal branch (`search_terms = [term.lower() ...]`): applied once
per run, before the file loop. -/
def effectiveSearchTerms (spec : AnalysisSpec) : List String :=
  if spec.is_regex then spec.terms else spec.terms.map pyLower

/-- Step 3, literal branch (`ignore_terms = [ignore.lower() ...]`): applied
once per run; in regex mode the ignore terms are left untouched. -/
def effectiveIgnoreTerms (spec : AnalysisSpec) : List String :=
  if spec.is_regex then spec.ignore_terms else spec.ignore_terms.map pyLower

/-- Step 3, regex branch: `re.compile` each term, skipping the ones that raise
`re.error` (modelled by `compile` returning `none`). -/
def compileRegexTerms (compile : String → Option Regex) (terms : List String) :
    List CompiledPattern :=
  terms.filterMap (fun t => (compile t).map (fun r => CompiledPattern.mk t r))

/-- The `compiled_patterns` list of a run (empty in literal mode, as in the
source). -/
def compiledOf (compile : String → Option Regex) (spec : AnalysisSpec) :
    List CompiledPattern :=
  if spec.is_regex then compileRegexTerms compile spec.terms else []

/-- The regex-mode matching loop: first compiled pattern whose search succeeds,
reported by its pattern text (`matched_term = pattern.pattern`). -/
def findMatchRegex (compiled : List CompiledPattern) (line : String) : Option String :=
  (compiled.find? (fun p => Regex.search p.re line)).map (fun p => p.pattern)

/-- The literal-mode matching loop over the pre-lowercased terms against
`line_lower` (`matched_term = term`, i.e. the lowercased term). -/
def findMatchLiteral (termsLc : List String) (lineLower : String) : Option String :=
  termsLc.find? (fun t => pyIn t lineLower)

/-- Lines 185-205: evaluate one line; `some t` means a record with matched term
`t` is written, `none` means nothing is written for this line. -/
def processLine (isRx : Bool) (compiled : List CompiledPattern)
    (termsLc ignores : List String) (line : String) : Option String :=
  let matchedTerm :=
    if isRx then findMatchRegex compiled line
    else findMatchLiteral termsLc (pyLower line)
  match matchedTerm with
  | none => none
  | some t =>
      let lineToCheck := if isRx then line else pyLower line
      if ignores.any (fun ig => pyIn ig lineToCheck) then none else some t

/-- A single-quote character, for the record format. -/
def quoteMark : String := String.mk [Char.ofNat 39]

/-- The output record `f"[\x7bfile_path\x7d] [Matched: Q\x7bmatched_term\x7dQ] \x7bline\x7d"`
where Q is a single quote. -/
def formatRecord (path term line : String) : String :=
  "[" ++ path ++ "] [Matched: " ++ quoteMark ++ term ++ quoteMark ++ "] " ++ line

/-- `pathlib.Path(dirpath) / filename` rendered as a string. -/
def joinPath (d f : String) : String :=
  if d = "." then f else d ++ "/" ++ f

/-- The per-file line loop: returns this file's contribution to
`found_matches` and the records appended to the output file, in line order. -/
def scanLines (isRx : Bool) (compiled : List CompiledPattern)
    (termsLc ignores : List String) (path : String) : List String → Nat × List String
  | [] => (0, [])
  | line :: rest =>
      let restRes := scanLines isRx compiled termsLc ignores path rest
      match processLine isRx compiled termsLc ignores line with
      | some t => (restRes.1 + 1, formatRecord path t line :: restRes.2)
      | none => restRes

/-- Lines 174-181: a file is opened and scanned iff its dirpath does not
contain `OUTPUT_DIR_NAME` and its name ends in `.log` or `.json`. -/
def eligibleFile (f : LogFile) : Bool :=
  !(pyIn OUTPUT_DIR_NAME f.dirpath)
    && (pyEndsWith f.filename ".log" || pyEndsWith f.filename ".json")

/-- The walk loop (step 4): total `found_matches` and all records written,
over the files in walk order. -/
def runScan (isRx : Bool) (compiled : List CompiledPattern)
    (termsLc ignores : List String) : List LogFile → Nat × List String
  | [] => (0, [])
  | f :: rest =>
      let restRes := runScan isRx compiled termsLc ignores rest
      if eligibleFile f then
        let fileRes := scanLines isRx compiled termsLc ignores
          (joinPath f.dirpath f.filename) f.lines
        (fileRes.1 + restRes.1, fileRes.2 ++ restRes.2)
      else restRes

/-- The records a run writes when it reaches the scan loop. -/
def runRecords (compile : String → Option Regex) (spec : AnalysisSpec)
    (files : List LogFile) : List String :=
  (runScan spec.is_regex (compiledOf compile spec) (effectiveSearchTerms spec)
    (effectiveIgnoreTerms spec) files).2

/-- `run_analysis` end to end over the modelled filesystem.

* `mkdirOk` models step 1 (`output_path.mkdir`): on failure the function
  returns before touching the destination, and no summary is reported.
* Step 2 then unlinks any pre-existing destination file.
* `sinkOk` models `open(output_file_path, "a")` in step 4: on `IOError` the
  run writes nothing (the destination stays deleted) but still reaches the
  step-5 summary with `found_matches = 0`.

Returns (destination content after the run, reported summary count). -/
def runAnalysisModel (compile : String → Option Regex) (mkdirOk sinkOk : Bool)
    (prev : Option (List String)) (spec : AnalysisSpec) (files : List LogFile) :
    Option (List String) × Option Nat :=
  if mkdirOk = false then (prev, none)
  else if sinkOk = false then (none, some 0)
  else
    let res := runScan spec.is_regex (compiledOf compile spec)
      (effectiveSearchTerms spec) (effectiveIgnoreTerms spec) files
    (some res.2, some res.1)

/-- Pattern text of catalog analysis "2", term 1. -/
def httpTerm1 : String := "\"status\":\\s?[45]\\d\x7b2\x7d"

/-- Pattern text of catalog analysis "2", term 2. -/
def httpTerm2 : String := "HTTP/\\d\\.\\d\"\\s+[45]\\d\x7b2\x7d"

/-- Pattern text of catalog analysis "2", term 3. -/
def httpTerm3 : String := "status=[45]\\d\x7b2\x7d"

/-- Pattern text of catalog analysis "2", term 4. -/
def httpTerm4 : String := "unexpected status code \\([45]\\d\x7b2\x7d"

/-- Compiled form of `httpTerm1`. -/
def httpRe1 : Regex :=
  Regex.seq (strChars "\"status\":")
    (Regex.seq (Regex.opt (Regex.cls wsChars))
      (Regex.seq (Regex.cls ['4', '5'])
        (Regex.seq (Regex.cls digitChars) (Regex.cls digitChars))))

/-- Compiled form of `httpTerm2`. -/
def httpRe2 : Regex :=
  Regex.seq (strChars "HTTP/")
    (Regex.seq (Regex.cls digitChars)
      (Regex.seq (Regex.chr '.')
        (Regex.seq (Regex.cls digitChars)
          (Regex.seq (Regex.chr '"')
            (Regex.seq (Regex.clsPlus wsChars)
              (Regex.seq (Regex.cls ['4', '5'])
                (Regex.seq (Regex.cls digitChars) (Regex.cls digitChars))))))))

/-- Compiled form of `httpTerm3`. -/
def httpRe3 : Regex :=
  Regex.seq (strChars "status=")
    (Regex.seq (Regex.cls ['4', '5'])
      (Regex.seq (Regex.cls digitChars) (Regex.cls digitChars)))

/-- Compiled form of `httpTerm4`. -/
def httpRe4 : Regex :=
  Regex.seq (strChars "unexpected status code (")
    (Regex.seq (Regex.cls ['4', '5'])
      (Regex.seq (Regex.cls digitChars) (Regex.cls digitChars)))

/-- `re.compile` on the four catalog patterns of analysis "2". -/
def httpCompile (t : String) : Option Regex :=
  if t = httpTerm1 then some httpRe1
  else if t = httpTerm2 then some httpRe2
  else if t = httpTerm3 then some httpRe3
  else if t = httpTerm4 then some httpRe4
  else none

/-- Catalog analysis "2" (HTTP Client/Server Errors). -/
def httpSpec : AnalysisSpec :=
  AnalysisSpec.mk [httpTerm1, httpTerm2, httpTerm3, httpTerm4]
    "http_error_codes.txt" true []

/-- The compiled-patterns list of the HTTP-errors analysis. -/
def httpCompiled : List CompiledPattern :=
  compileRegexTerms httpCompile httpSpec.terms

/-- `find?` succeeds exactly when some element satisfies the predicate. -/
theorem find?_isSome_eq_any {α : Type} (p : α → Bool) (l : List α) :
    (l.find? p).isSome = l.any p := by
  induction l with
  | nil => rfl
  | cons x xs ih =>
      by_cases h : p x = true
      · simp [List.find?_cons_of_pos, h]
      · simp [List.find?_cons_of_neg, h, ih]

/-- Per-file `found_matches` contribution equals the number of records the
file contributes. -/
theorem scanLines_fst_eq_length (isRx : Bool) (compiled : List CompiledPattern)
    (termsLc ignores : List String) (path : String) (lines : List String) :
    (scanLines isRx compiled termsLc ignores path lines).1
      = (scanLines isRx compiled termsLc ignores path lines).2.length := by
  induction lines with
  | nil => rfl
  | cons line rest ih =>
      simp only [scanLines]
      cases processLine isRx compiled termsLc ignores line with
      | none => exact ih
      | some t => simp [ih]

/-- Total `found_matches` equals the total number of records written. -/
theorem runScan_fst_eq_length (isRx : Bool) (compiled : List CompiledPattern)
    (termsLc ignores : List String) (files : List LogFile) :
    (runScan isRx compiled termsLc ignores files).1
      = (runScan isRx compiled termsLc ignores files).2.length := by
  induction files with
  | nil => rfl
  | cons f rest ih =>
      simp only [runScan]
      by_cases h : eligibleFile f = true
      · simp [h, ih, scanLines_fst_eq_length]
      · simp [h, ih]

/-- Ineligible files contribute nothing: the scan is determined by the
eligible files alone. -/
theorem runScan_filter_eligible (isRx : Bool) (compiled : List CompiledPattern)
    (termsLc ignores : List String) (files : List LogFile) :
    runScan isRx compiled termsLc ignores files
      = runScan isRx compiled termsLc ignores (files.filter eligibleFile) := by
  induction files with
  | nil => rfl
  | cons f rest ih =>
      by_cases h : eligibleFile f = true
      · simp [runScan, List.filter_cons, h, ih]
      · simp [runScan, List.filter_cons, h, ih]

/-- Terms whose compilation fails are dropped; the compiled list is that of
the compilable terms alone. -/
theorem compileRegexTerms_filter_compilable (compile : String → Option Regex)
    (terms : List String) :
    compileRegexTerms compile terms
      = compileRegexTerms compile (terms.filter (fun t => (compile t).isSome)) := by
  induction terms with
  | nil => rfl
  | cons t rest ih =>
      cases h : compile t with
      | none =>
          simp only [compileRegexTerms, List.filterMap_cons, List.filter_cons, h,
            Option.map_none', Option.isSome_none, Bool.false_eq_true, if_false]
          simpa [compileRegexTerms] using ih
      | some r =>
          simp only [compileRegexTerms, List.filter_cons, h, Option.isSome_some,
            if_pos, List.filterMap_cons]
          simpa [compileRegexTerms, h] using ih

/-- C1: in literal mode a line matches a term iff the lowercased line contains
the lowercased term as a substring; the terms and the ignore terms are
lowercased at compile time (step 3), once per run; in particular the term
"fail" matches lines containing "FAIL", "Fail" and "fail". -/
theorem literal_match_iff_lower_substring :
    (∀ (terms : List String) (line : String),
        (findMatchLiteral (terms.map pyLower) (pyLower line)).isSome
          = terms.any (fun t => pyIn (pyLower t) (pyLower line)))
    ∧ (∀ spec : AnalysisSpec, spec.is_regex = false →
        effectiveSearchTerms spec = spec.terms.map pyLower
          ∧ effectiveIgnoreTerms spec = spec.ignore_terms.map pyLower)
    ∧ (pyIn (pyLower "fail") (pyLower "x FAIL y") = true
        ∧ pyIn (pyLower "fail") (pyLower "x Fail y") = true
        ∧ pyIn (pyLower "fail") (pyLower "x fail y") = true
        ∧ findMatchLiteral
            (effectiveSearchTerms (AnalysisSpec.mk ["fail"] "o.txt" false []))
            (pyLower "x FAIL y") = some "fail") := by
  refine ⟨?_, ?_, ?_⟩
  · intro terms line
    rw [findMatchLiteral, find?_isSome_eq_any, List.any_map]
    rfl
  · intro spec h
    constructor
    · simp [effectiveSearchTerms, h]
    · simp [effectiveIgnoreTerms, h]
  · refine ⟨by decide, by decide, by decide, by decide⟩

/-- C1 witness: the hypothesis `is_regex = false` discharged on a concrete
literal spec. -/
theorem literal_match_iff_lower_substring_witness :
    effectiveSearchTerms (AnalysisSpec.mk ["FAIL"] "o.txt" false ["IG"])
        = ["FAIL"].map pyLower
      ∧ effectiveIgnoreTerms (AnalysisSpec.mk ["FAIL"] "o.txt" false ["IG"])
        = ["IG"].map pyLower :=
  literal_match_iff_lower_substring.2.1
    (AnalysisSpec.mk ["FAIL"] "o.txt" false ["IG"]) rfl

/-- C2: in regex mode a line matches iff at least one successfully compiled
pattern's case-insensitive search succeeds anywhere in it; concretely, under
the HTTP-errors analysis the line with status 404 matches (via the first
pattern) and the line with status 200 does not. -/
theorem regex_match_iff_any_search :
    (∀ (compiled : List CompiledPattern) (line : String),
        (findMatchRegex compiled line).isSome
          = compiled.any (fun p => Regex.search p.re line))
    ∧ findMatchRegex httpCompiled "\"status\": 404 done" = some httpTerm1
    ∧ findMatchRegex httpCompiled "\"status\": 200 done" = none := by
  refine ⟨?_, by decide, by decide⟩
  intro compiled line
  rw [findMatchRegex, Option.isSome_map', find?_isSome_eq_any]

/-- C3: each line yields at most one record; terms are tested in caller order
and the first match determines the reported term; with terms
["fail", "error"] and a line containing both, the reported term is "fail". -/
theorem first_match_single_record :
    (∀ (isRx : Bool) (compiled : List CompiledPattern)
        (termsLc ignores : List String) (path line : String) (rest : List String),
        (scanLines isRx compiled termsLc ignores path (line :: rest)).2.length
          ≤ (scanLines isRx compiled termsLc ignores path rest).2.length + 1)
    ∧ (∀ (t : String) (rest : List String) (lineLower : String),
        pyIn t lineLower = true →
        findMatchLiteral (t :: rest) lineLower = some t)
    ∧ processLine false [] ["fail", "error"] [] "x fail error y" = some "fail" := by
  refine ⟨?_, ?_, by decide⟩
  · intro isRx compiled termsLc ignores path line rest
    simp only [scanLines]
    cases processLine isRx compiled termsLc ignores line with
    | none => simp
    | some t => simp
  · intro t rest lineLower h
    simp [findMatchLiteral, List.find?_cons_of_pos, h]

/-- C3 witness: the first-match hypothesis discharged on a concrete line. -/
theorem first_match_single_record_witness :
    findMatchLiteral ["fail", "error"] "a fail b" = some "fail" :=
  first_match_single_record.2.1 "fail" ["error"] "a fail b" (by decide)

/-- C4: ignore terms are evaluated only after a term match (no match means
`none` whatever the ignore terms are), by substring containment against the
same text form used for matching (lowercased line in literal mode, raw line
case-sensitively in regex mode), and any contained ignore term suppresses the
line entirely; with term "error" and ignore term "knownerror" the line
"a knownerror occurred" yields zero records. -/
theorem ignore_checked_after_match :
    (∀ (isRx : Bool) (compiled : List CompiledPattern)
        (termsLc ignores : List String) (line : String),
        (if isRx then findMatchRegex compiled line
          else findMatchLiteral termsLc (pyLower line)) = none →
        processLine isRx compiled termsLc ignores line = none)
    ∧ (∀ (isRx : Bool) (compiled : List CompiledPattern)
        (termsLc ignores : List String) (line : String),
        ignores.any (fun ig => pyIn ig (if isRx then line else pyLower line)) = true →
        processLine isRx compiled termsLc ignores line = none)
    ∧ scanLines false [] ["error"] ["knownerror"] "a.log" ["a knownerror occurred"]
        = (0, [])
    ∧ processLine true [CompiledPattern.mk "x" (strChars "x")] [] ["X Y"] "x y"
        = some "x" := by
  refine ⟨?_, ?_, by decide, by decide⟩
  · intro isRx compiled termsLc ignores line h
    simp only [processLine]
    rw [h]
  · intro isRx compiled termsLc ignores line h
    simp only [processLine]
    cases hf : (if isRx then findMatchRegex compiled line
        else findMatchLiteral termsLc (pyLower line)) with
    | none => simp
    | some t => simp [h]

/-- C4 witness: the suppression hypothesis discharged on the concrete
"knownerror" line. -/
theorem ignore_checked_after_match_witness :
    processLine false [] ["error"] ["knownerror"] "a knownerror occurred" = none :=
  ignore_checked_after_match.2.1 false [] ["error"] ["knownerror"]
    "a knownerror occurred" (by decide)

/-- C5 counterexample: with caller-supplied term "FAIL" (literal mode) on a
line containing "FAIL", the written record reports the lowercased term
"fail", not the original form "FAIL" — the claim as stated is false. -/
theorem matched_term_original_counterexample :
    (runAnalysisModel (fun _ => none) true true none
        (AnalysisSpec.mk ["FAIL"] "out.txt" false [])
        [LogFile.mk "." "app.log" ["a FAIL b"]]).1
      = some [formatRecord "app.log" "fail" "a FAIL b"]
    ∧ "fail" ≠ "FAIL" := by
  exact ⟨by decide, by decide⟩

/-- C5 amended: in literal mode the matchedTerm reported for a matching line
is the LOWERCASED form of the first containing term supplied by the caller. -/
theorem matched_term_is_lowercased_form (terms : List String) (line : String) :
    findMatchLiteral (terms.map pyLower) (pyLower line)
      = (terms.find? (fun t => pyIn (pyLower t) (pyLower line))).map pyLower := by
  rw [findMatchLiteral, List.find?_map]
  rfl

/-- C6: a regex term that fails to compile is skipped and the remaining terms
are compiled and used; the run still completes and reports a summary count;
concretely a failing pattern alongside a good one yields exactly the good
one's compiled pattern. -/
theorem invalid_regex_skipped_run_completes :
    (∀ (compile : String → Option Regex) (terms : List String),
        compileRegexTerms compile terms
          = compileRegexTerms compile (terms.filter (fun t => (compile t).isSome)))
    ∧ (∀ (compile : String → Option Regex) (prev : Option (List String))
        (spec : AnalysisSpec) (files : List LogFile),
        (runAnalysisModel compile true true prev spec files).2.isSome = true)
    ∧ compileRegexTerms (fun t => if t = "ok" then some Regex.eps else none)
        ["(", "ok"] = [CompiledPattern.mk "ok" Regex.eps] := by
  refine ⟨compileRegexTerms_filter_compilable, ?_, by decide⟩
  intro compile prev spec files
  simp [runAnalysisModel]

/-- C7: a file is scanned iff its name ends in ".log" or ".json" and its
dirpath does not contain the output-directory name; "app.txt" is never
scanned even with a matching term, "app.log" is eligible, and a ".log" file
under the results directory is never read. -/
theorem scanned_iff_eligible :
    (∀ (files : List LogFile) (f : LogFile),
        f ∈ files.filter eligibleFile ↔ f ∈ files ∧ eligibleFile f = true)
    ∧ (∀ (isRx : Bool) (compiled : List CompiledPattern)
        (termsLc ignores : List String) (files : List LogFile),
        runScan isRx compiled termsLc ignores files
          = runScan isRx compiled termsLc ignores (files.filter eligibleFile))
    ∧ eligibleFile (LogFile.mk "." "app.txt" ["a fail b"]) = false
    ∧ eligibleFile (LogFile.mk "." "app.log" []) = true
    ∧ eligibleFile (LogFile.mk "./analysis_results" "old.log" []) = false
    ∧ runScan false [] ["fail"] []
        [LogFile.mk "." "app.txt" ["a fail b"],
          LogFile.mk "./analysis_results" "r.log" ["fail"]] = (0, []) := by
  refine ⟨?_, runScan_filter_eligible, by decide, by decide, by decide, by decide⟩
  intro files f
  exact List.mem_filter

/-- C7 witness: the filter characterisation applied at a concrete file. -/
theorem scanned_iff_eligible_witness :
    (LogFile.mk "." "a.log" []) ∈ ([LogFile.mk "." "a.log" []] : List LogFile)
      ∧ eligibleFile (LogFile.mk "." "a.log" []) = true :=
  (scanned_iff_eligible.1 [LogFile.mk "." "a.log" []]
    (LogFile.mk "." "a.log" [])).mp (by decide)

/-- C8: on a completed run the reported count equals exactly the number of
records written to the destination (post-ignore-filtering). -/
theorem reported_count_eq_records_written (compile : String → Option Regex)
    (prev : Option (List String)) (spec : AnalysisSpec) (files : List LogFile) :
    runAnalysisModel compile true true prev spec files
      = (some (runRecords compile spec files),
          some (runRecords compile spec files).length) := by
  have h := runScan_fst_eq_length spec.is_regex (compiledOf compile spec)
    (effectiveSearchTerms spec) (effectiveIgnoreTerms spec) files
  simp [runAnalysisModel, runRecords, h]

/-- C9: each run deletes the destination before appending, so after a second
run over the same destination the content is exactly the second run's
records, independent of what any earlier run left there. -/
theorem second_run_replaces_first (compile : String → Option Regex)
    (prev : Option (List String)) (spec1 : AnalysisSpec) (files1 : List LogFile)
    (spec2 : AnalysisSpec) (files2 : List LogFile) :
    (runAnalysisModel compile true true
        ((runAnalysisModel compile true true prev spec1 files1).1)
        spec2 files2).1
      = some (runRecords compile spec2 files2)
    ∧ ∀ prevA prevB : Option (List String),
        (runAnalysisModel compile true true prevA spec2 files2).1
          = (runAnalysisModel compile true true prevB spec2 files2).1 := by
  constructor
  · simp [runAnalysisModel, runRecords]
  · intro prevA prevB
    simp [runAnalysisModel]

/-- C10: the pre-existing destination is unlinked before the sink is opened,
so whether the open succeeds or fails the destination never retains an
earlier run's content: it holds exactly this run's records on success and is
absent on sink-open failure. -/
theorem destination_never_retains_previous (compile : String → Option Regex)
    (sinkOk : Bool) (prev : Option (List String)) (spec : AnalysisSpec)
    (files : List LogFile) :
    (runAnalysisModel compile true sinkOk prev spec files).1
      = if sinkOk then some (runRecords compile spec files) else none := by
  cases sinkOk <;> simp [runAnalysisModel, runRecords]
